import Mathlib

/-!
Shallow embedding of `scripts/publish.py`, the build/publish/delete
orchestration utility for signing test packages.

Modelling conventions:
* filesystem paths are strings; a directory listing is a list of `DirEntry`
  (name plus whether the entry is a directory); a built artifact is a
  `PkgFile` (full path used for sorting, final filename used for substring
  matching), matching `pathlib.Path` objects which compare by their string
  and expose `.name`;
* Python `sorted` on paths/strings is lexicographic code-point order, which
  is Lean's `String` order; it is embedded as a stable insertion sort whose
  decision procedure goes through `String.toList` so that concrete runs
  reduce;
* subprocess invocations (`rattler-build build` / `upload`) are embedded as
  the argument vectors the script assembles;
* HTTP effects are embedded by passing in the data the network would
  return: the fetched package index is an association list
  filename ↦ package-name (the `"packages.conda"` object of repodata), and
  the response to each DELETE is a function from filename to `HttpResult`;
* `os.environ` is an association list looked up by first match; the
  optional `.env` file is `Option (List String)` (its lines), `none` when
  the file does not exist.
-/

namespace SigningTests

/-- A decision procedure for the string order that the kernel can evaluate:
`s₁ ≤ s₂` is decided on the character lists. -/
def decStrLe (a b : String) : Decidable (a ≤ b) :=
  decidable_of_iff (¬ b.toList < a.toList)
    (by rw [← String.lt_iff_toList_lt]; exact Iff.rfl)

/-- Embeds `BASE_URL = "https://beta.prefix.dev"`. -/
def BASE_URL : String := "https://beta.prefix.dev"

/-- Embeds `CHANNEL = "signing-tests"`. -/
def CHANNEL : String := "signing-tests"

/-- Embeds the registry `PACKAGES` (test package name ↦ subdir), in source
order. -/
def PACKAGES : List (String × String) :=
  [("all-signed", "noarch"),
   ("last-version-unsigned", "noarch"),
   ("variants-unsigned", "linux-64")]

/-- The registered scenario names, in registry order. -/
def scenarioNames : List String := PACKAGES.map (fun p => p.1)

/-- Embeds Python's substring test `sub in s`. -/
def strContains (s sub : String) : Bool := decide (sub.toList <:+: s.toList)

/-- One entry of a directory listing, as `Path.iterdir` yields it: its name
and whether it is a directory. -/
structure DirEntry where
  name : String
  isDir : Bool
deriving DecidableEq

/-- A built artifact file as `Path.rglob` yields it: the full path (used
for sorting and for the upload command) and the filename (`.name`, used for
substring matching). -/
structure PkgFile where
  path : String
  name : String
deriving DecidableEq

/-- One upload performed by a publish handler: the artifact and whether
`--generate-attestation` was requested. -/
structure Upload where
  pkg : PkgFile
  attested : Bool
deriving DecidableEq

/-- Embeds `sorted` on a list of strings. -/
def sortStrings (l : List String) : List String :=
  @List.insertionSort String (fun a b => a ≤ b) (fun a b => decStrLe a b) l

/-- Embeds `sorted(recipes.iterdir())`: entries of one directory sorted by
name (paths sharing the parent prefix compare by final component). -/
def sortEntries (l : List DirEntry) : List DirEntry :=
  @List.insertionSort DirEntry (fun a b => a.name ≤ b.name)
    (fun a b => decStrLe a.name b.name) l

/-- Embeds `sorted(output_dir.rglob("*.conda"))`: artifact files sorted by
full path. -/
def sortPkgs (l : List PkgFile) : List PkgFile :=
  @List.insertionSort PkgFile (fun a b => a.path ≤ b.path)
    (fun a b => decStrLe a.path b.path) l

/-- Embeds `build_recipe`: the argument vector handed to `subprocess.run`.
The base command names the recipe and output directory, skips existing
artifacts, and pins the channel URL; `-m` and `--target-platform` are
appended exactly when the optional arguments are given. -/
def build_recipe_cmd (recipe_path output_dir : String)
    (variant_config : Option String) (target_platform : Option String) :
    List String :=
  let channel_url := BASE_URL ++ "/" ++ CHANNEL
  let cmd := ["rattler-build", "build", "-r", recipe_path,
    "--output-dir", output_dir, "--skip-existing", "all", "-c", channel_url]
  let cmd := cmd ++ (match variant_config with
    | some m => ["-m", m]
    | none => [])
  cmd ++ (match target_platform with
    | some t => ["--target-platform", t]
    | none => [])

/-- Embeds `upload_package`: the argument vector handed to
`subprocess.run`, with `--generate-attestation` exactly when requested. -/
def upload_package_cmd (pkg_path : String) (generate_attestation : Bool) :
    List String :=
  ["rattler-build", "upload", "prefix", "-c", CHANNEL, "-u", BASE_URL]
    ++ (if generate_attestation then ["--generate-attestation"] else [])
    ++ [pkg_path]

/-- Embeds Python's `str.strip()`: drop whitespace characters from both
ends (whitespace per `Char.isWhitespace`). -/
def pyStrip (s : String) : String :=
  (((s.toList.dropWhile Char.isWhitespace).reverse.dropWhile
    Char.isWhitespace).reverse).asString

/-- Embeds `line.startswith("#")`: whether the first character is `#`. -/
def startsWithHash (s : String) : Bool :=
  match s.toList with
  | [] => false
  | c :: _ => c == '#'

/-- Splits a character list at its first `=`: the part before it and the
part after it, or `none` when there is no `=`. -/
def splitAtEq : List Char → Option (List Char × List Char)
  | [] => none
  | c :: rest =>
    if c = '=' then some ([], rest)
    else (splitAtEq rest).map (fun p => (c :: p.1, p.2))

/-- Embeds `line.partition("=")`, keeping only the pieces the script uses:
the part before the first `=` and the part after it (the whole string and
`""` when there is no `=`). -/
def pyPartitionEq (s : String) : String × String :=
  match splitAtEq s.toList with
  | none => (s, "")
  | some p => (p.1.asString, p.2.asString)

/-- Embeds the body of the `load_env` loop for one line: strip it, skip it
when it is blank or a comment, otherwise split at the first `=` and strip
key and value. -/
def parseEnvLine (line : String) : Option (String × String) :=
  let stripped := pyStrip line
  if (stripped == "") || startsWithHash stripped then none
  else
    let kv := pyPartitionEq stripped
    some (pyStrip kv.1, pyStrip kv.2)

/-- Embeds `os.environ.setdefault(k, v)`: bind `k` to `v` only when `k` is
unbound. -/
def setdefault (env : List (String × String)) (k v : String) :
    List (String × String) :=
  match env.lookup k with
  | some _ => env
  | none => env ++ [(k, v)]

/-- One iteration of the `load_env` loop applied to the environment. -/
def envStep (env : List (String × String)) (line : String) :
    List (String × String) :=
  match parseEnvLine line with
  | none => env
  | some kv => setdefault env kv.1 kv.2

/-- Embeds `load_env`: when the `.env` file exists, fold its lines over the
process environment with set-if-absent updates; otherwise leave the
environment unchanged. -/
def load_env (envFile : Option (List String))
    (env : List (String × String)) : List (String × String) :=
  match envFile with
  | none => env
  | some lines => lines.foldl envStep env

/-- Embeds `get_api_key`: run `load_env`, then read `PREFIX_API_KEY`;
`none` models the `sys.exit(1)` taken when the variable is unset or empty
(Python's `if not api_key`). -/
def get_api_key (envFile : Option (List String))
    (env : List (String × String)) : Option String :=
  let env2 := load_env envFile env
  match env2.lookup "PREFIX_API_KEY" with
  | none => none
  | some k => if k = "" then none else some k

/-- Embeds `list_packages` applied to a fetched index: the filenames whose
entry's name field equals `package_name`, sorted. -/
def list_packages (index : List (String × String)) (package_name : String) :
    List String :=
  sortStrings ((index.filter (fun e => e.2 == package_name)).map
    (fun e => e.1))

/-- The outcome of one HTTP DELETE as `urllib` reports it: a successful
response with its status, or an `HTTPError` with its code. -/
inductive HttpResult where
  | success (status : Nat) (reason : String)
  | httpError (code : Nat) (reason : String)
deriving DecidableEq

/-- Embeds `delete_package` given the response to its DELETE request: an
`HTTPError` with code 404 is swallowed, any other `HTTPError` is re-raised
(carrying its code), a successful response is fine. -/
def delete_package (resp : HttpResult) : Except Nat Unit :=
  match resp with
  | .success _ _ => .ok ()
  | .httpError code _ => if code = 404 then .ok () else .error code

/-- Embeds the delete loop of `delete_packages`: attempt each filename in
order; stop at the first re-raised error. Returns the filenames for which
a DELETE request was issued and the code of the fatal error, if any. -/
def delete_loop (resp : String → HttpResult) :
    List String → List String × Option Nat
  | [] => ([], none)
  | f :: rest =>
    match delete_package (resp f) with
    | .ok _ =>
      let r := delete_loop resp rest
      (f :: r.1, r.2)
    | .error c => ([f], some c)

/-- A network call made by `delete_packages`: the repodata fetch or one
DELETE request. -/
inductive Event where
  | fetchIndex (subdir : String)
  | deleteCall (subdir : String) (filename : String)
deriving DecidableEq

/-- How a `delete_packages` run ends abnormally: `KeyError` on an
unregistered name, `sys.exit(1)` on a missing credential, or a re-raised
`HTTPError`. -/
inductive RunError where
  | badName (name : String)
  | missingKey
  | httpFailure (code : Nat)
deriving DecidableEq

/-- Embeds `delete_packages`: look the name up in the registry, resolve the
credential, fetch the index, filter and sort the matching filenames, and
delete each in turn. Returns the network calls performed, in order, and
the error that ended the run, if any. -/
def delete_packages (name : String) (envFile : Option (List String))
    (env : List (String × String)) (index : List (String × String))
    (resp : String → HttpResult) : List Event × Option RunError :=
  match PACKAGES.lookup name with
  | none => ([], some (RunError.badName name))
  | some subdir =>
    match get_api_key envFile env with
    | none => ([], some RunError.missingKey)
    | some _ =>
      let filenames := list_packages index name
      if filenames.isEmpty then ([Event.fetchIndex subdir], none)
      else
        let r := delete_loop resp filenames
        (Event.fetchIndex subdir :: r.1.map (Event.deleteCall subdir),
         r.2.map RunError.httpFailure)

/-- Embeds the build loop of `publish_all_signed`: each directory entry of
`recipes/all-signed`, in sorted order, skipping non-directories, produces
one build command for its `recipe.yaml`. -/
def publish_all_signed_builds (root : String) (entries : List DirEntry) :
    List (List String) :=
  ((sortEntries entries).filter (fun e => e.isDir)).map (fun d =>
    build_recipe_cmd (root ++ "/recipes/all-signed/" ++ d.name ++
      "/recipe.yaml") (root ++ "/output/all-signed") none none)

/-- Embeds the upload loop of `publish_all_signed`: every built artifact,
in sorted order, is uploaded with an attestation. -/
def publish_all_signed_uploads (packages : List PkgFile) : List Upload :=
  (sortPkgs packages).map (fun p => { pkg := p, attested := true })

/-- Embeds the build loop of `publish_last_version_unsigned`, identical to
the all-signed one but rooted at `recipes/last-version-unsigned`. -/
def publish_last_version_unsigned_builds (root : String)
    (entries : List DirEntry) : List (List String) :=
  ((sortEntries entries).filter (fun e => e.isDir)).map (fun d =>
    build_recipe_cmd (root ++ "/recipes/last-version-unsigned/" ++ d.name ++
      "/recipe.yaml") (root ++ "/output/last-version-unsigned") none none)

/-- Embeds the upload phase of `publish_last_version_unsigned`: sort the
built artifacts, split them by whether the filename contains `"1.5.0"`,
upload the non-matching ones first with attestation, then the matching
ones without. -/
def publish_last_version_unsigned_uploads (packages : List PkgFile) :
    List Upload :=
  let pkgs := sortPkgs packages
  let signed_pkgs := pkgs.filter (fun p => !(strContains p.name "1.5.0"))
  let unsigned_pkgs := pkgs.filter (fun p => strContains p.name "1.5.0")
  signed_pkgs.map (fun p => { pkg := p, attested := true })
    ++ unsigned_pkgs.map (fun p => { pkg := p, attested := false })

/-- Embeds the single build call of `publish_variants_unsigned`: one
command with the variant config and the `linux-64` target platform. -/
def publish_variants_unsigned_build (root : String) : List String :=
  build_recipe_cmd (root ++ "/recipes/variants-unsigned/recipe.yaml")
    (root ++ "/output/variants-unsigned")
    (some (root ++ "/recipes/variants-unsigned/variants.yaml"))
    (some "linux-64")

/-- Embeds the upload loop of `publish_variants_unsigned`: every built
artifact, in sorted order, is uploaded, with an attestation exactly when
its filename contains `"py312"`. -/
def publish_variants_unsigned_uploads (packages : List PkgFile) :
    List Upload :=
  (sortPkgs packages).map (fun p =>
    { pkg := p, attested := strContains p.name "py312" })

/-- Embeds the argument handling of `main`. `argv` is `sys.argv` (program
name first). `none` models a usage error: the script prints the valid
choices or the usage line and exits with status 1, performing no build,
upload, or delete. `some hs` models dispatch to the handlers `hs`, each an
action paired with the scenario it runs on. -/
def main_dispatch : List String → Option (List (String × String))
  | _prog :: action :: rest =>
    if action = "publish" ∨ action = "delete" then
      match rest with
      | [] => none
      | target :: _ =>
        if target = "all" then
          some (scenarioNames.map (fun n => (action, n)))
        else if target ∈ scenarioNames then some [(action, target)]
        else none
    else none
  | _ => none

end SigningTests

namespace SigningTests

theorem lookup_append_of_isSome {l₁ l₂ : List (String × String)} {k : String}
    (h : (l₁.lookup k).isSome) : (l₁ ++ l₂).lookup k = l₁.lookup k := by
  induction l₁ with
  | nil => simp [List.lookup] at h
  | cons p t ih =>
    obtain ⟨k1, v1⟩ := p
    rw [List.cons_append]
    cases hk : (k == k1) with
    | true => simp [List.lookup, hk]
    | false =>
      simp only [List.lookup, hk] at h ⊢
      exact ih h

theorem lookup_append_of_none {l₁ l₂ : List (String × String)} {k : String}
    (h : l₁.lookup k = none) : (l₁ ++ l₂).lookup k = l₂.lookup k := by
  induction l₁ with
  | nil => rfl
  | cons p t ih =>
    obtain ⟨k1, v1⟩ := p
    rw [List.cons_append]
    cases hk : (k == k1) with
    | true => simp [List.lookup, hk] at h
    | false =>
      simp only [List.lookup, hk] at h ⊢
      exact ih h

theorem lookup_setdefault_of_isSome {env : List (String × String)}
    {k k' v : String} (h : (env.lookup k).isSome) :
    (setdefault env k' v).lookup k = env.lookup k := by
  cases henv : env.lookup k' with
  | some w => simp [setdefault, henv]
  | none =>
    simp only [setdefault, henv]
    exact lookup_append_of_isSome h

theorem lookup_envStep_of_isSome {env : List (String × String)}
    {line k : String} (h : (env.lookup k).isSome) :
    (envStep env line).lookup k = env.lookup k := by
  cases hp : parseEnvLine line with
  | none => simp [envStep, hp]
  | some kv =>
    simp only [envStep, hp]
    exact lookup_setdefault_of_isSome h

theorem lookup_foldl_envStep_of_isSome :
    ∀ (lines : List String) (env : List (String × String)) (k : String),
      (env.lookup k).isSome = true →
      (lines.foldl envStep env).lookup k = env.lookup k
  | [], _, _, _ => rfl
  | l :: ls, env, k, h => by
    rw [List.foldl_cons]
    have hstep := @lookup_envStep_of_isSome env l k h
    rw [lookup_foldl_envStep_of_isSome ls (envStep env l) k (by rw [hstep]; exact h)]
    exact hstep

theorem lookup_envStep_of_none {env : List (String × String)}
    {line k : String} (h : env.lookup k = none)
    (hline : ∀ p, parseEnvLine line = some p → ¬ p.1 = k) :
    (envStep env line).lookup k = none := by
  cases hp : parseEnvLine line with
  | none => simpa [envStep, hp] using h
  | some kv =>
    have hk : ¬ k = kv.1 := fun e => hline kv hp e.symm
    simp only [envStep, hp, setdefault]
    cases henv : env.lookup kv.1 with
    | some w => exact h
    | none =>
      rw [lookup_append_of_none h]
      cases hbeq : (k == kv.1) with
      | true => exact absurd (eq_of_beq hbeq) hk
      | false => simp [List.lookup, hbeq]

theorem lookup_foldl_envStep_of_none :
    ∀ (lines : List String) (env : List (String × String)) (k : String),
      env.lookup k = none →
      (∀ l ∈ lines, ∀ p, parseEnvLine l = some p → ¬ p.1 = k) →
      (lines.foldl envStep env).lookup k = none
  | [], _, _, h, _ => h
  | l :: ls, env, k, h, hall => by
    rw [List.foldl_cons]
    exact lookup_foldl_envStep_of_none ls (envStep env l) k
      (lookup_envStep_of_none h (hall l (List.mem_cons_self l ls)))
      (fun x hx => hall x (List.mem_cons_of_mem l hx))

theorem parseEnvLine_eq_none {line : String}
    (h : pyStrip line = "" ∨ startsWithHash (pyStrip line) = true) :
    parseEnvLine line = none := by
  rcases h with h | h
  · simp [parseEnvLine, h]
  · simp [parseEnvLine, h]

/-- C3: credential resolution has set-if-absent semantics: a key already
set in the process environment keeps its value after loading the `.env`
file, a key unset in the environment takes the file's (first) value for
it, and blank or `#`-comment lines are ignored; a concrete run showing
all three behaviors at once. -/
theorem c3_load_env_set_if_absent (env : List (String × String))
    (envFile : Option (List String)) (k : String) :
    ((env.lookup k).isSome = true →
      (load_env envFile env).lookup k = env.lookup k) ∧
    (∀ lines pre line post v,
      envFile = some lines → env.lookup k = none →
      lines = pre ++ line :: post →
      parseEnvLine line = some (k, v) →
      (∀ l ∈ pre, ∀ p, parseEnvLine l = some p → ¬ p.1 = k) →
      (load_env envFile env).lookup k = some v) ∧
    (∀ (env2 : List (String × String)) lines1 line lines2,
      (pyStrip line = "" ∨ startsWithHash (pyStrip line) = true) →
      load_env (some (lines1 ++ line :: lines2)) env2 =
        load_env (some (lines1 ++ lines2)) env2) ∧
    load_env (some ["# comment", " ", "FOO = bar", "FOO=baz", "KEY=file"])
        [("KEY", "env"), ("PREFIX_API_KEY", "secret")] =
      [("KEY", "env"), ("PREFIX_API_KEY", "secret"), ("FOO", "bar")] := by
  refine ⟨?_, ?_, ?_, by decide⟩
  · intro h
    cases envFile with
    | none => rfl
    | some lines => exact lookup_foldl_envStep_of_isSome lines env k h
  · intro lines pre line post v hfile henv hsplit hparse hpre
    subst hfile
    subst hsplit
    have h1 : (pre.foldl envStep env).lookup k = none :=
      lookup_foldl_envStep_of_none pre env k henv hpre
    have h2 : (envStep (pre.foldl envStep env) line).lookup k = some v := by
      simp only [envStep, hparse, setdefault, h1]
      rw [lookup_append_of_none h1]
      simp [List.lookup]
    show ((pre ++ line :: post).foldl envStep env).lookup k = some v
    rw [List.foldl_append, List.foldl_cons]
    rw [lookup_foldl_envStep_of_isSome post _ k (by rw [h2]; rfl)]
    exact h2
  · intro env2 lines1 line lines2 h
    have hn := parseEnvLine_eq_none h
    show ((lines1 ++ line :: lines2).foldl envStep env2) =
      ((lines1 ++ lines2).foldl envStep env2)
    rw [List.foldl_append, List.foldl_append, List.foldl_cons]
    congr 1
    simp [envStep, hn]

end SigningTests

namespace SigningTests

theorem delete_loop_all_404 (resp : String → HttpResult) :
    ∀ fs : List String,
      (∀ g ∈ fs, ∃ r, resp g = HttpResult.httpError 404 r) →
      delete_loop resp fs = (fs, none)
  | [], _ => rfl
  | g :: gs, hall => by
    obtain ⟨r, hr⟩ := hall g (List.mem_cons_self g gs)
    have h2 := delete_loop_all_404 resp gs
      (fun x hx => hall x (List.mem_cons_of_mem g hx))
    simp [delete_loop, delete_package, hr, h2]

/-- C2: a DELETE answered 404 is treated as success and the loop moves on
to the next filename; any other error response is re-raised, aborting the
remaining deletes; a run in which every response is 404 ends with no
fatal error and every filename attempted. -/
theorem c2_delete_404_swallowed (reason : String) (c : Nat) (f : String)
    (fs rest : List String) (resp : String → HttpResult) :
    (delete_package (HttpResult.httpError 404 reason) = Except.ok ()) ∧
    (¬ c = 404 →
      delete_package (HttpResult.httpError c reason) = Except.error c) ∧
    (resp f = HttpResult.httpError 404 reason →
      delete_loop resp (f :: rest) =
        (f :: (delete_loop resp rest).1, (delete_loop resp rest).2)) ∧
    (resp f = HttpResult.httpError c reason → ¬ c = 404 →
      delete_loop resp (f :: rest) = ([f], some c)) ∧
    ((∀ g ∈ fs, ∃ r, resp g = HttpResult.httpError 404 r) →
      delete_loop resp fs = (fs, none)) := by
  refine ⟨rfl, ?_, ?_, ?_, delete_loop_all_404 resp fs⟩
  · intro hc
    simp [delete_package, hc]
  · intro h
    simp [delete_loop, delete_package, h]
  · intro h hc
    simp [delete_loop, delete_package, h, hc]

/-- C4: when no credential is available (the `.env` file and the process
environment together yield no nonempty `PREFIX_API_KEY`), a delete run for
a registered name reports the missing key and stops before any network
call: no index fetch and no DELETE request happens. -/
theorem c4_missing_credential_no_network (name : String)
    (envFile : Option (List String)) (env : List (String × String))
    (index : List (String × String)) (resp : String → HttpResult)
    (hname : (PACKAGES.lookup name).isSome = true)
    (hkey : get_api_key envFile env = none) :
    delete_packages name envFile env index resp =
      ([], some RunError.missingKey) := by
  cases hp : PACKAGES.lookup name with
  | none => rw [hp] at hname; simp at hname
  | some subdir => simp [delete_packages, hp, hkey]

/-- Witness for C4: the run for `all-signed` with an empty environment and
no `.env` file performs no network call and fails with the missing-key
error. -/
theorem c4_missing_credential_witness :
    delete_packages "all-signed" none [] []
        (fun _ => HttpResult.success 200 "OK") =
      ([], some RunError.missingKey) :=
  c4_missing_credential_no_network "all-signed" none [] []
    (fun _ => HttpResult.success 200 "OK") (by decide) (by decide)

/-- C9: when the fetched index has no entry whose name field equals the
scenario name, the deleter fetches the index, issues no DELETE request,
and returns without error. -/
theorem c9_no_matching_packages_ok (name subdir : String)
    (envFile : Option (List String)) (env : List (String × String))
    (index : List (String × String)) (resp : String → HttpResult)
    (hname : PACKAGES.lookup name = some subdir)
    (hkey : (get_api_key envFile env).isSome = true)
    (hidx : ∀ e ∈ index, ¬ e.2 = name) :
    delete_packages name envFile env index resp =
      ([Event.fetchIndex subdir], none) := by
  obtain ⟨key, hk⟩ := Option.isSome_iff_exists.mp hkey
  have hfilter : index.filter (fun e => e.2 == name) = [] :=
    List.filter_eq_nil_iff.mpr (fun e he => by simpa using hidx e he)
  simp [delete_packages, hname, hk, list_packages, hfilter, sortStrings]

/-- Witness for C9: deleting `all-signed` when the index only lists a
different package fetches the index and makes no DELETE request. -/
theorem c9_no_matching_packages_witness :
    delete_packages "all-signed" none [("PREFIX_API_KEY", "k")]
        [("pkg-1.0.0-h1.conda", "other-package")]
        (fun _ => HttpResult.success 200 "OK") =
      ([Event.fetchIndex "noarch"], none) :=
  c9_no_matching_packages_ok "all-signed" "noarch" none
    [("PREFIX_API_KEY", "k")] [("pkg-1.0.0-h1.conda", "other-package")]
    (fun _ => HttpResult.success 200 "OK") (by decide) (by decide) (by decide)

/-- C7: an invocation with fewer than two positional arguments, or whose
action is neither `publish` nor `delete`, or whose target is neither a
registered scenario nor `all`, is a usage error: the script exits without
dispatching any handler. -/
theorem c7_usage_error_no_dispatch (argv : List String)
    (h : argv.length < 3 ∨
      (∀ a, argv[1]? = some a → ¬(a = "publish" ∨ a = "delete")) ∨
      (∀ t, argv[2]? = some t → ¬ t ∈ scenarioNames ∧ ¬ t = "all")) :
    main_dispatch argv = none := by
  match argv with
  | [] => rfl
  | [_] => rfl
  | p :: a :: rest =>
    by_cases ha : a = "publish" ∨ a = "delete"
    · cases rest with
      | nil => simp [main_dispatch, ha]
      | cons t rest2 =>
        rcases h with h | h | h
        · simp only [List.length_cons] at h
          omega
        · exact absurd ha (h a (by simp))
        · obtain ⟨hs, hall⟩ := h t (by simp)
          simp [main_dispatch, ha, hs, hall]
    · simp [main_dispatch, ha]

/-- Witness for C7: invoking the script with no target prints usage and
dispatches nothing. -/
theorem c7_usage_error_witness :
    main_dispatch ["scripts/publish.py", "publish"] = none :=
  c7_usage_error_no_dispatch ["scripts/publish.py", "publish"]
    (Or.inl (by decide))

end SigningTests

namespace SigningTests

instance : IsTotal DirEntry (fun a b => a.name ≤ b.name) :=
  ⟨fun a b => le_total a.name b.name⟩

instance : IsTrans DirEntry (fun a b => a.name ≤ b.name) :=
  ⟨fun _ _ _ h1 h2 => le_trans h1 h2⟩

theorem sortPkgs_perm (l : List PkgFile) : (sortPkgs l).Perm l :=
  @List.perm_insertionSort PkgFile (fun a b => a.path ≤ b.path)
    (fun a b => decStrLe a.path b.path) l

theorem sortEntries_perm (l : List DirEntry) : (sortEntries l).Perm l :=
  @List.perm_insertionSort DirEntry (fun a b => a.name ≤ b.name)
    (fun a b => decStrLe a.name b.name) l

theorem sortEntries_sorted (l : List DirEntry) :
    List.Sorted (fun a b : DirEntry => a.name ≤ b.name) (sortEntries l) :=
  @List.sorted_insertionSort DirEntry (fun a b => a.name ≤ b.name)
    (fun a b => decStrLe a.name b.name)
    (inferInstance) (inferInstance) l

/-- C1: in the last-version-unsigned scenario the uploads split into a
first block, all attested with filenames not containing `"1.5.0"`, and a
second block, all unattested with filenames containing `"1.5.0"`; on the
three artifacts containing `"1.0.0"`, `"1.5.0"`, `"2.0.0"` the upload
order is 1.0.0 attested, 2.0.0 attested, then 1.5.0 unattested. -/
theorem c1_last_version_unsigned_order (packages : List PkgFile) :
    (∃ A B, publish_last_version_unsigned_uploads packages = A ++ B ∧
      (∀ u ∈ A, u.attested = true ∧ strContains u.pkg.name "1.5.0" = false) ∧
      (∀ u ∈ B, u.attested = false ∧ strContains u.pkg.name "1.5.0" = true)) ∧
    publish_last_version_unsigned_uploads
        [⟨"output/pkg-1.0.0-h1.conda", "pkg-1.0.0-h1.conda"⟩,
         ⟨"output/pkg-1.5.0-h1.conda", "pkg-1.5.0-h1.conda"⟩,
         ⟨"output/pkg-2.0.0-h1.conda", "pkg-2.0.0-h1.conda"⟩] =
      [⟨⟨"output/pkg-1.0.0-h1.conda", "pkg-1.0.0-h1.conda"⟩, true⟩,
       ⟨⟨"output/pkg-2.0.0-h1.conda", "pkg-2.0.0-h1.conda"⟩, true⟩,
       ⟨⟨"output/pkg-1.5.0-h1.conda", "pkg-1.5.0-h1.conda"⟩, false⟩] := by
  constructor
  · refine ⟨((sortPkgs packages).filter
        (fun p : PkgFile => !(strContains p.name "1.5.0"))).map
        (fun p : PkgFile => ({ pkg := p, attested := true } : Upload)),
      ((sortPkgs packages).filter
        (fun p : PkgFile => strContains p.name "1.5.0")).map
        (fun p : PkgFile => ({ pkg := p, attested := false } : Upload)),
      rfl, ?_, ?_⟩
    · intro u hu
      simp only [List.mem_map, List.mem_filter] at hu
      obtain ⟨p, ⟨_, hp⟩, rfl⟩ := hu
      exact ⟨rfl, by simpa using hp⟩
    · intro u hu
      simp only [List.mem_map, List.mem_filter] at hu
      obtain ⟨p, ⟨_, hp⟩, rfl⟩ := hu
      exact ⟨rfl, hp⟩
  · decide

/-- C5: in the variants-unsigned scenario an artifact is uploaded with the
attestation flag exactly when its filename contains `"py312"`. -/
theorem c5_variants_attested_iff_py312 (packages : List PkgFile) (u : Upload)
    (hu : u ∈ publish_variants_unsigned_uploads packages) :
    u.attested = strContains u.pkg.name "py312" := by
  simp only [publish_variants_unsigned_uploads, List.mem_map] at hu
  obtain ⟨p, _, rfl⟩ := hu
  rfl

/-- Witness for C5: on a py312 and a py313 artifact, the py312 upload is
attested and the py313 upload is not. -/
theorem c5_variants_witness :
    (Upload.mk (PkgFile.mk "output/pkg-py312-0.conda" "pkg-py312-0.conda")
      true).attested = strContains "pkg-py312-0.conda" "py312" :=
  c5_variants_attested_iff_py312
    [PkgFile.mk "output/pkg-py312-0.conda" "pkg-py312-0.conda"]
    (Upload.mk (PkgFile.mk "output/pkg-py312-0.conda" "pkg-py312-0.conda")
      true)
    (by decide)

/-- C8: the substring split of the last-version-unsigned scenario is a
true partition: the uploaded artifacts are a permutation of the sorted
enumeration, no artifact is in both the attested and the unattested
block, and each artifact is uploaded as many times as it was enumerated
(exactly once when the enumeration lists it once). -/
theorem c8_split_is_partition (packages : List PkgFile) :
    ((publish_last_version_unsigned_uploads packages).map
      (fun u => u.pkg)).Perm (sortPkgs packages) ∧
    (∀ p : PkgFile,
      ¬(p ∈ (sortPkgs packages).filter
          (fun q => !(strContains q.name "1.5.0")) ∧
        p ∈ (sortPkgs packages).filter
          (fun q => strContains q.name "1.5.0"))) ∧
    (∀ p : PkgFile,
      ((publish_last_version_unsigned_uploads packages).map
        (fun u => u.pkg)).count p = packages.count p) := by
  have h1 : (publish_last_version_unsigned_uploads packages).map
      (fun u => u.pkg) =
      (sortPkgs packages).filter (fun p => !(strContains p.name "1.5.0")) ++
      (sortPkgs packages).filter (fun p => strContains p.name "1.5.0") := by
    simp [publish_last_version_unsigned_uploads, List.map_map, Function.comp_def]
  have h2 : ((sortPkgs packages).filter
      (fun p => !(strContains p.name "1.5.0")) ++
      (sortPkgs packages).filter
      (fun p => strContains p.name "1.5.0")).Perm (sortPkgs packages) := by
    have hfp := List.filter_append_perm
      (fun p : PkgFile => !(strContains p.name "1.5.0")) (sortPkgs packages)
    simpa [Bool.not_not] using hfp
  refine ⟨h1 ▸ h2, ?_, ?_⟩
  · rintro p ⟨hp1, hp2⟩
    have hb1 := (List.mem_filter.mp hp1).2
    have hb2 := (List.mem_filter.mp hp2).2
    rw [Bool.not_eq_true'] at hb1
    rw [hb1] at hb2
    exact Bool.false_ne_true hb2
  · intro p
    exact ((h1 ▸ h2).trans (sortPkgs_perm packages)).count_eq p

/-- C6: the build command is the build subcommand with the recipe path,
the output directory, the skip-existing flag and the fixed channel URL,
with `-m` exactly when a variant config is given and `--target-platform`
exactly when a platform is given; and in both directory-iterating publish
scenarios the recipe version directories are processed in lexical sort
order (the build list maps a name-sorted copy of the directory entries). -/
theorem c6_build_cmd_shape_and_sorted_order :
    (∀ r o, build_recipe_cmd r o none none =
      ["rattler-build", "build", "-r", r, "--output-dir", o,
       "--skip-existing", "all", "-c",
       "https://beta.prefix.dev/signing-tests"]) ∧
    (∀ r o m, build_recipe_cmd r o (some m) none =
      build_recipe_cmd r o none none ++ ["-m", m]) ∧
    (∀ r o t, build_recipe_cmd r o none (some t) =
      build_recipe_cmd r o none none ++ ["--target-platform", t]) ∧
    (∀ r o m t, build_recipe_cmd r o (some m) (some t) =
      build_recipe_cmd r o none none ++ ["-m", m] ++
        ["--target-platform", t]) ∧
    (∀ root entries, ∃ dirs : List DirEntry,
      List.Sorted (fun a b : DirEntry => a.name ≤ b.name) dirs ∧
      dirs.Perm (entries.filter (fun e => e.isDir)) ∧
      publish_all_signed_builds root entries = dirs.map (fun d =>
        build_recipe_cmd
          (root ++ "/recipes/all-signed/" ++ d.name ++ "/recipe.yaml")
          (root ++ "/output/all-signed") none none)) ∧
    (∀ root entries, ∃ dirs : List DirEntry,
      List.Sorted (fun a b : DirEntry => a.name ≤ b.name) dirs ∧
      dirs.Perm (entries.filter (fun e => e.isDir)) ∧
      publish_last_version_unsigned_builds root entries = dirs.map (fun d =>
        build_recipe_cmd
          (root ++ "/recipes/last-version-unsigned/" ++ d.name ++
            "/recipe.yaml")
          (root ++ "/output/last-version-unsigned") none none)) := by
  refine ⟨fun r o => by simp [build_recipe_cmd, BASE_URL, CHANNEL],
    fun r o m => by simp [build_recipe_cmd],
    fun r o t => by simp [build_recipe_cmd],
    fun r o m t => by simp [build_recipe_cmd],
    ?_, ?_⟩
  · intro root entries
    exact ⟨(sortEntries entries).filter (fun e => e.isDir),
      List.Pairwise.sublist (List.filter_sublist _) (sortEntries_sorted entries),
      (sortEntries_perm entries).filter (fun e => e.isDir), rfl⟩
  · intro root entries
    exact ⟨(sortEntries entries).filter (fun e => e.isDir),
      List.Pairwise.sublist (List.filter_sublist _) (sortEntries_sorted entries),
      (sortEntries_perm entries).filter (fun e => e.isDir), rfl⟩

/-- C10: in the all-signed and last-version-unsigned scenarios a build
command only ever arises from a directory entry: every emitted command is
the build command of some entry of the listing that is a directory, so
stray files in the recipes root never produce a build. -/
theorem c10_only_directories_built (root : String) (entries : List DirEntry)
    (cmd : List String) :
    (cmd ∈ publish_all_signed_builds root entries →
      ∃ e, e ∈ entries ∧ e.isDir = true ∧
        cmd = build_recipe_cmd
          (root ++ "/recipes/all-signed/" ++ e.name ++ "/recipe.yaml")
          (root ++ "/output/all-signed") none none) ∧
    (cmd ∈ publish_last_version_unsigned_builds root entries →
      ∃ e, e ∈ entries ∧ e.isDir = true ∧
        cmd = build_recipe_cmd
          (root ++ "/recipes/last-version-unsigned/" ++ e.name ++
            "/recipe.yaml")
          (root ++ "/output/last-version-unsigned") none none) := by
  constructor
  · intro hc
    simp only [publish_all_signed_builds, List.mem_map, List.mem_filter] at hc
    obtain ⟨d, ⟨hmem, hdir⟩, rfl⟩ := hc
    exact ⟨d, (sortEntries_perm entries).mem_iff.mp hmem, hdir, rfl⟩
  · intro hc
    simp only [publish_last_version_unsigned_builds, List.mem_map,
      List.mem_filter] at hc
    obtain ⟨d, ⟨hmem, hdir⟩, rfl⟩ := hc
    exact ⟨d, (sortEntries_perm entries).mem_iff.mp hmem, hdir, rfl⟩

end SigningTests
